import Mathlib

/-!
# WebModbus core: shallow embedding and verification

A shallow embedding of the protocol core of `src/modbus.js` (a Modbus RTU
master driver): the CRC engine (`calculateCRC`), the frame codec
(`createModbusFrame`, `extractFrame`, `validateFrame`), the transaction
engine (`waitForResponse`, `handleTransaction`, `processValidResponse`)
and one poll cycle of the scheduler (`startPolling`'s inner loop).

Bytes are modelled as `Nat` (JS `Uint8Array` elements are 0..255; the
`Uint8Array` constructor's truncation is modelled by explicit `&&& 0xFF`
masks where the source constructs arrays from arbitrary numbers).
Asynchronous transport reads are modelled as a list of `ReadEvent`s: each
successful `reader.read()` yields a chunk, a stream closure yields `done`,
a rejected read yields an error; the wall-clock response timeout is
modelled as exhaustion of the event list.  The DOM value display bound to
a register row is modelled as an `Option Int` (none = the placeholder).
-/

namespace WebModbus

/-! ## CRC engine (`calculateCRC`, src/modbus.js lines 197-206) -/

/-- One shift round of the CRC loop:
`crc = crc & 0x0001 ? (crc >> 1) ^ 0xA001 : crc >> 1`. -/
def crcShift (crc : Nat) : Nat :=
  if crc &&& 0x0001 = 1 then (crc >>> 1) ^^^ 0xA001 else crc >>> 1

/-- The inner `for (let i = 0; i < 8; i++)` loop: `n` shift rounds. -/
def crcShiftN : Nat → Nat → Nat
  | crc, 0 => crc
  | crc, n + 1 => crcShiftN (crcShift crc) n

/-- One iteration of `for (const byte of data)`: `crc ^= byte` then 8 rounds. -/
def crcUpdate (crc byte : Nat) : Nat :=
  crcShiftN (crc ^^^ byte) 8

/-- The running 16-bit CRC register after folding `data` from `0xFFFF`. -/
def crcFold (data : List Nat) : Nat :=
  data.foldl crcUpdate 0xFFFF

/-- `calculateCRC(data)`: the two CRC bytes, low byte first. -/
def calculateCRC (data : List Nat) : List Nat :=
  [crcFold data &&& 0xFF, (crcFold data >>> 8) &&& 0xFF]

/-! ## Frame codec (src/modbus.js lines 186-227) -/

/-- `createModbusFrame(slave, reg)`: the 6-byte request body followed by
the CRC.  Every element of a JS `Uint8Array` literal is truncated to
8 bits, hence the mask on `slave` (the other entries are already < 256
when `reg` fits in 32 bits, via the explicit `& 0xFF` in the source). -/
def createModbusFrame (slave reg : Nat) : List Nat :=
  let message := [slave &&& 0xFF, 0x03, (reg >>> 8) &&& 0xFF, reg &&& 0xFF, 0x00, 0x01]
  message ++ calculateCRC message

/-- `validateFrame(frame)`: length floor of 7, then compare the trailing
two bytes (`frame.slice(-2)`) with the CRC of the rest (`frame.slice(0,-2)`). -/
def validateFrame (frame : List Nat) : Bool :=
  if frame.length < 7 then false
  else
    let data := frame.take (frame.length - 2)
    let crc := frame.drop (frame.length - 2)
    let calculatedCRC := calculateCRC data
    (crc.getD 0 0 == calculatedCRC.getD 0 0) && (crc.getD 1 0 == calculatedCRC.getD 1 0)

/-- Result of `extractFrame`: the recovered frame and the rest of the buffer. -/
structure FrameInfo where
  frame : List Nat
  remaining : List Nat
  deriving Repr, DecidableEq

/-- The 7-byte candidate window `buffer.slice(i, i + 7)`. -/
def window (buffer : List Nat) (i : Nat) : List Nat :=
  (buffer.drop i).take 7

/-- The scan loop of `extractFrame`: `n` remaining iterations starting at
index `i` (the JS loop runs `i` from `0` through `buffer.length - 7`). -/
def extractFrameGo (buffer : List Nat) : Nat → Nat → Option FrameInfo
  | _, 0 => none
  | i, n + 1 =>
    let candidate := window buffer i
    if validateFrame candidate then
      some ⟨candidate, buffer.drop (i + 7)⟩
    else
      extractFrameGo buffer (i + 1) n

/-- `extractFrame(buffer)`: search for the first CRC-valid 7-byte window;
`buffer.length + 1 - 7` is the number of loop iterations (zero when the
buffer is shorter than 7 bytes, matching the JS loop bound). -/
def extractFrame (buffer : List Nat) : Option FrameInfo :=
  extractFrameGo buffer 0 (buffer.length + 1 - 7)

/-! ## Transaction engine (src/modbus.js lines 114-184)

The transport is modelled as a list of read events delivered to
`waitForResponse` in order; the wall-clock timeout is the exhaustion of
the event list.  The transaction log is the list of entries appended by
the code, in order. -/

/-- The `direction` tag of a log entry (`logTransaction`'s first argument). -/
inductive Direction where
  | SENT
  | RECEIVED
  | TIMEOUT
  | INVALID
  | ERROR
  deriving Repr, DecidableEq

/-- One entry appended by `logTransaction(direction, data, tid, message)`. -/
structure LogEntry where
  dir : Direction
  data : Option (List Nat)
  tid : Nat
  msg : String
  deriving Repr, DecidableEq

/-- One outcome of `await reader.read()` during the await phase:
a byte chunk, a stream closure (`done`), or a rejected read. -/
inductive ReadEvent where
  | chunk (bytes : List Nat)
  | streamDone
  | readError (msg : String)
  deriving Repr, DecidableEq

/-- Body of the inner `while (buffer.length >= 7)` scan loop of
`waitForResponse`, with an explicit iteration budget: extract a frame,
drop it from the buffer, accept it when `validateFrame` holds (logging
`RECEIVED`), otherwise log `INVALID`/`CRC mismatch` and keep scanning.
Every iteration that continues removes at least 7 bytes from the buffer,
so `buffer.length` iterations always suffice (see `scanBuffer`); the
budget exists only to make the recursion structural.  Returns
`(gotFrame, buffer, log entries)`. -/
def scanBufferGo (tid : Nat) : Nat → List Nat → Option (List Nat) × List Nat × List LogEntry
  | 0, buffer => (none, buffer, [])
  | fuel + 1, buffer =>
    if 7 ≤ buffer.length then
      match extractFrame buffer with
      | none => (none, buffer, [])
      | some fi =>
        if validateFrame fi.frame then
          (some fi.frame, fi.remaining, [⟨Direction.RECEIVED, some fi.frame, tid, ""⟩])
        else
          let r := scanBufferGo tid fuel fi.remaining
          (r.1, r.2.1, ⟨Direction.INVALID, some fi.frame, tid, "CRC mismatch"⟩ :: r.2.2)
    else
      (none, buffer, [])

/-- The inner scan loop of `waitForResponse`, run to completion on a
buffer (`buffer.length` bounds the iteration count of the JS `while`
loop, which consumes at least 7 bytes per continuing iteration). -/
def scanBuffer (tid : Nat) (buffer : List Nat) :
    Option (List Nat) × List Nat × List LogEntry :=
  scanBufferGo tid buffer.length buffer

/-- The outer read loop of `waitForResponse` over the pending read events,
carrying the accumulating receive buffer.  An exhausted event list is the
response timeout; `streamDone` is `done` (break); `readError` is a rejected
read, caught by the surrounding `try`/`catch` which logs `ERROR` and ends
the wait.  Returns `(gotFrame, log entries)`. -/
def waitLoop (tid : Nat) : List ReadEvent → List Nat → Option (List Nat) × List LogEntry
  | [], _ => (none, [])
  | ReadEvent.streamDone :: _, _ => (none, [])
  | ReadEvent.readError msg :: _, _ => (none, [⟨Direction.ERROR, none, tid, msg⟩])
  | ReadEvent.chunk bytes :: evs, buffer =>
    let buf := buffer ++ bytes
    let s := scanBuffer tid buf
    match s.1 with
    | some f => (some f, s.2.2)
    | none =>
      let rest := waitLoop tid evs s.2.1
      (rest.1, s.2.2 ++ rest.2)

/-- `waitForResponse(tid)`: start from an empty receive buffer. -/
def waitForResponse (tid : Nat) (evs : List ReadEvent) :
    Option (List Nat) × List LogEntry :=
  waitLoop tid evs []

/-- `processValidResponse(frame, tid, reg, row)`: check the byte-count
field, decode the payload, and update the row's bound value display
(modelled as the returned `Option Int`).  Returns the new display value
and the appended log entries. -/
def processValidResponse (frame : List Nat) (tid : Nat) (isSigned : Bool)
    (display : Option Int) : Option Int × List LogEntry :=
  let byteCount := frame.getD 2 0
  if byteCount ≠ 2 then
    (display, [⟨Direction.INVALID, some frame, tid, "Bad byte count"⟩])
  else
    let rawValue := ((frame.getD 3 0) <<< 8) ||| frame.getD 4 0
    let value : Int :=
      if isSigned ∧ 32767 < rawValue then (rawValue : Int) - 65536 else (rawValue : Int)
    (some value, [])

/-- `handleTransaction(slave, reg, row, tid)` with a successful send:
build the frame, log `SENT` (from `sendFrame`), run the await phase, then
either process the response or log `TIMEOUT`/`No response`.  Returns the
row's display value and the appended log entries, in chronological order. -/
def handleTransaction (slave reg tid : Nat) (isSigned : Bool)
    (display : Option Int) (evs : List ReadEvent) :
    Option Int × List LogEntry :=
  match (waitForResponse tid evs).1 with
  | some response =>
    ((processValidResponse response tid isSigned display).1,
      ⟨Direction.SENT, some (createModbusFrame slave reg), tid, ""⟩ ::
        ((waitForResponse tid evs).2 ++
          (processValidResponse response tid isSigned display).2))
  | none =>
    (display,
      ⟨Direction.SENT, some (createModbusFrame slave reg), tid, ""⟩ ::
        ((waitForResponse tid evs).2 ++
          [⟨Direction.TIMEOUT, some (createModbusFrame slave reg), tid, "No response"⟩]))

/-- One configured register row as read at the start of a poll cycle:
`reg = none` models a non-numeric register field (`parseInt` gave `NaN`),
`events` the transport's behaviour for this row's transaction. -/
structure RegRow where
  reg : Option Nat
  isSigned : Bool
  display : Option Int
  events : List ReadEvent
  deriving Repr

/-- One poll cycle of `startPolling`'s inner `for (const row of window.rows)`
loop: skip rows whose register field parsed to `NaN` (no transaction id
increment, no log entry, an empty cell in the cycle values), otherwise
increment the transaction counter and run the transaction.  Returns the
final transaction counter, the appended log entries, and the per-row
cycle values. -/
def pollCycle (slave : Nat) : Nat → List RegRow → Nat × List LogEntry × List (Option Int)
  | tid, [] => (tid, [], [])
  | tid, row :: rows =>
    match row.reg with
    | none =>
      let rest := pollCycle slave tid rows
      (rest.1, rest.2.1, none :: rest.2.2)
    | some reg =>
      let t := handleTransaction slave reg (tid + 1) row.isSigned row.display row.events
      let rest := pollCycle slave (tid + 1) rows
      (rest.1, t.2 ++ rest.2.1, t.1 :: rest.2.2)

/-! ## Concrete test vectors and helpers -/

/-- Flip bit `k` of a frame: XOR byte `k / 8` with the mask `1 << (k % 8)`. -/
def flipBit (f : List Nat) (k : Nat) : List Nat :=
  f.set (k / 8) (f.getD (k / 8) 0 ^^^ (1 <<< (k % 8)))

/-- A well-formed single-register read response frame (slave `0x1A`,
byte count 2, value `0x0005`), used as a concrete test vector. -/
def respFrame : List Nat :=
  [0x1A, 0x03, 0x02, 0x00, 0x05] ++ calculateCRC [0x1A, 0x03, 0x02, 0x00, 0x05]

/-- A CRC-valid 7-byte frame whose byte-count field is 4 instead of 2,
used as a concrete test vector for the structural check. -/
def badCountFrame : List Nat :=
  [0x1A, 0x03, 0x04, 0x00, 0x00] ++ calculateCRC [0x1A, 0x03, 0x04, 0x00, 0x00]

/-! ## Basic facts about the codec scan -/

/-- A frame accepted by `validateFrame` holds at least 7 bytes. -/
theorem validateFrame_length {f : List Nat} (h : validateFrame f = true) :
    7 ≤ f.length := by
  by_contra hlt
  have hf : validateFrame f = false := by
    unfold validateFrame
    rw [if_pos (by omega)]
  rw [hf] at h
  exact Bool.false_ne_true h

/-- Length of a candidate window. -/
theorem window_length (buffer : List Nat) (i : Nat) :
    (window buffer i).length = min 7 (buffer.length - i) := by
  simp [window]

/-- A CRC-valid candidate window starts at least 7 bytes before the
buffer's end. -/
theorem valid_window_bound {buffer : List Nat} {i : Nat}
    (h : validateFrame (window buffer i) = true) : i + 7 ≤ buffer.length := by
  have h7 := validateFrame_length h
  rw [window_length] at h7
  omega

/-- A CRC-valid candidate window holds exactly 7 bytes. -/
theorem valid_window_length {buffer : List Nat} {i : Nat}
    (h : validateFrame (window buffer i) = true) :
    (window buffer i).length = 7 := by
  have hb := valid_window_bound h
  rw [window_length]
  omega

/-- Soundness of the scan loop: a successful `extractFrameGo` run found the
first CRC-valid window at or after its start index. -/
theorem extractFrameGo_some {buffer : List Nat} {n : Nat} :
    ∀ {i : Nat} {fi : FrameInfo}, extractFrameGo buffer i n = some fi →
      ∃ j, i ≤ j ∧ j < i + n ∧ fi.frame = window buffer j ∧
        validateFrame (window buffer j) = true ∧
        fi.remaining = buffer.drop (j + 7) ∧
        ∀ m, i ≤ m → m < j → validateFrame (window buffer m) = false := by
  induction n with
  | zero => intro i fi h; simp [extractFrameGo] at h
  | succ n ih =>
    intro i fi h
    cases hv : validateFrame (window buffer i) with
    | true =>
      simp only [extractFrameGo, hv, if_true] at h
      obtain rfl : FrameInfo.mk (window buffer i) (buffer.drop (i + 7)) = fi := by
        simpa using h
      exact ⟨i, le_refl i, by omega, rfl, hv, rfl,
        fun m h1 h2 => absurd h1 (by omega)⟩
    | false =>
      simp only [extractFrameGo, hv, if_false] at h
      obtain ⟨j, hj1, hj2, hframe, hvj, hrem, hmin⟩ := ih h
      refine ⟨j, by omega, by omega, hframe, hvj, hrem, fun m h1 h2 => ?_⟩
      rcases Nat.eq_or_lt_of_le h1 with rfl | hlt
      · exact hv
      · exact hmin m hlt h2

/-- Completeness of the scan loop: if `j` is the first CRC-valid window at
or after the start index and is within range, the loop returns it. -/
theorem extractFrameGo_first {buffer : List Nat} {n : Nat} :
    ∀ {i j : Nat}, i ≤ j → j < i + n →
      validateFrame (window buffer j) = true →
      (∀ m, i ≤ m → m < j → validateFrame (window buffer m) = false) →
      extractFrameGo buffer i n = some ⟨window buffer j, buffer.drop (j + 7)⟩ := by
  induction n with
  | zero => intro i j h1 h2 _ _; omega
  | succ n ih =>
    intro i j h1 h2 hv hmin
    rcases Nat.eq_or_lt_of_le h1 with rfl | hlt
    · simp only [extractFrameGo, hv, if_true]
    · have hi : validateFrame (window buffer i) = false := hmin i (le_refl i) hlt
      simp only [extractFrameGo, hi, if_false]
      exact ih hlt (by omega) hv (fun m hm1 hm2 => hmin m (by omega) hm2)

/-- Soundness of `extractFrame`: a recovered frame is the earliest
CRC-valid 7-byte window, and the remaining buffer is the suffix after it. -/
theorem extractFrame_eq_some {buffer : List Nat} {fi : FrameInfo}
    (h : extractFrame buffer = some fi) :
    ∃ j, j + 7 ≤ buffer.length ∧ fi.frame = window buffer j ∧
      validateFrame fi.frame = true ∧ fi.remaining = buffer.drop (j + 7) ∧
      ∀ m, m < j → validateFrame (window buffer m) = false := by
  obtain ⟨j, _, _, hframe, hv, hrem, hmin⟩ := extractFrameGo_some h
  exact ⟨j, valid_window_bound hv, hframe, by rw [hframe]; exact hv, hrem,
    fun m hm => hmin m (Nat.zero_le m) hm⟩

/-- Completeness of `extractFrame`: the earliest CRC-valid 7-byte window
is recovered. -/
theorem extractFrame_eq_some_of {buffer : List Nat} {j : Nat}
    (hv : validateFrame (window buffer j) = true)
    (hmin : ∀ m, m < j → validateFrame (window buffer m) = false) :
    extractFrame buffer = some ⟨window buffer j, buffer.drop (j + 7)⟩ := by
  have hb := valid_window_bound hv
  exact extractFrameGo_first (Nat.zero_le j) (by omega) hv
    (fun m _ hm => hmin m hm)

/-- `extractFrame` returns `none` when no CRC-valid 7-byte window exists
(in particular whenever the buffer holds fewer than 7 bytes). -/
theorem extractFrame_eq_none {buffer : List Nat}
    (h : ∀ i, i + 7 ≤ buffer.length → validateFrame (window buffer i) = false) :
    extractFrame buffer = none := by
  cases hEq : extractFrame buffer with
  | none => rfl
  | some fi =>
    obtain ⟨j, hj, hframe, hv, _, _⟩ := extractFrame_eq_some hEq
    rw [hframe, h j hj] at hv
    exact absurd hv (Bool.false_ne_true)

/-- Every frame recovered by `extractFrame` passes `validateFrame`. -/
theorem extractFrame_valid {buffer : List Nat} {fi : FrameInfo}
    (h : extractFrame buffer = some fi) : validateFrame fi.frame = true := by
  obtain ⟨_, _, _, hv, _, _⟩ := extractFrame_eq_some h
  exact hv

/-- Every frame recovered by `extractFrame` holds exactly 7 bytes. -/
theorem extractFrame_frame_length {buffer : List Nat} {fi : FrameInfo}
    (h : extractFrame buffer = some fi) : fi.frame.length = 7 := by
  obtain ⟨j, _, hframe, hv, _, _⟩ := extractFrame_eq_some h
  rw [hframe] at hv ⊢
  exact valid_window_length hv

/-- A buffer shorter than 7 bytes yields no frame (the scan loop body
never runs). -/
theorem extractFrame_short {buffer : List Nat} (h : buffer.length < 7) :
    extractFrame buffer = none := by
  unfold extractFrame
  rw [show buffer.length + 1 - 7 = 0 by omega]
  rfl

/-! ## Facts about the await phase -/

/-- `scanBuffer` when the buffer contains no CRC-valid window: nothing is
consumed and nothing is logged. -/
theorem scanBuffer_none {tid : Nat} {buffer : List Nat}
    (h : extractFrame buffer = none) :
    scanBuffer tid buffer = (none, buffer, []) := by
  unfold scanBuffer
  cases hn : buffer.length with
  | zero => rfl
  | succ n =>
    rw [scanBufferGo]
    split
    · split
      · rfl
      · next fi hEq => rw [h] at hEq; cases hEq
    · rfl

/-- `scanBuffer` when a frame is recovered: since `extractFrame` only
returns CRC-valid frames, the frame is accepted at once, a single
`RECEIVED` entry is logged, and the remaining buffer is kept. -/
theorem scanBuffer_some {tid : Nat} {buffer : List Nat} {fi : FrameInfo}
    (h : extractFrame buffer = some fi) :
    scanBuffer tid buffer =
      (some fi.frame, fi.remaining,
        [⟨Direction.RECEIVED, some fi.frame, tid, ""⟩]) := by
  have hlen : 7 ≤ buffer.length := by
    obtain ⟨j, hj, _⟩ := extractFrame_eq_some h
    omega
  unfold scanBuffer
  cases hn : buffer.length with
  | zero => omega
  | succ n =>
    rw [scanBufferGo]
    rw [if_pos (by omega)]
    split
    · next hEq => rw [h] at hEq; cases hEq
    · next fi' hEq =>
      rw [h] at hEq
      obtain rfl : fi = fi' := by injection hEq
      rw [if_pos (extractFrame_valid h)]

/-- Every entry logged inside the await loop is `RECEIVED` or `ERROR`
(never `INVALID`, never `TIMEOUT`). -/
theorem waitLoop_logs {tid : Nat} :
    ∀ (evs : List ReadEvent) (buffer : List Nat),
      ∀ e ∈ (waitLoop tid evs buffer).2,
        e.dir = Direction.RECEIVED ∨ e.dir = Direction.ERROR := by
  intro evs
  induction evs with
  | nil => intro buffer e he; simp [waitLoop] at he
  | cons ev evs ih =>
    intro buffer e he
    cases ev with
    | streamDone => simp [waitLoop] at he
    | readError msg =>
      simp [waitLoop] at he
      rw [he]
      exact Or.inr rfl
    | chunk bytes =>
      rw [waitLoop] at he
      cases hE : extractFrame (buffer ++ bytes) with
      | some fi =>
        rw [scanBuffer_some hE] at he
        simp at he
        rw [he]
        exact Or.inl rfl
      | none =>
        rw [scanBuffer_none hE] at he
        simp at he
        exact ih (buffer ++ bytes) e he

/-- When the await loop recovers a frame, the only entries it logged are
`RECEIVED` ones. -/
theorem waitLoop_some_logs {tid : Nat} :
    ∀ (evs : List ReadEvent) (buffer : List Nat) (f : List Nat),
      (waitLoop tid evs buffer).1 = some f →
      ∀ e ∈ (waitLoop tid evs buffer).2, e.dir = Direction.RECEIVED := by
  intro evs
  induction evs with
  | nil => intro buffer f _ e he; simp [waitLoop] at he
  | cons ev evs ih =>
    intro buffer f hf e he
    cases ev with
    | streamDone => simp [waitLoop] at he
    | readError msg => simp [waitLoop] at hf
    | chunk bytes =>
      rw [waitLoop] at he hf
      cases hE : extractFrame (buffer ++ bytes) with
      | some fi =>
        rw [scanBuffer_some hE] at he
        simp at he
        rw [he]
      | none =>
        rw [scanBuffer_none hE] at he hf
        simp at he hf
        exact ih (buffer ++ bytes) f hf e he

/-- A frame recovered by the await loop is CRC-valid and 7 bytes long. -/
theorem waitLoop_some_valid {tid : Nat} :
    ∀ (evs : List ReadEvent) (buffer : List Nat) (f : List Nat),
      (waitLoop tid evs buffer).1 = some f →
      validateFrame f = true ∧ f.length = 7 := by
  intro evs
  induction evs with
  | nil => intro buffer f hf; simp [waitLoop] at hf
  | cons ev evs ih =>
    intro buffer f hf
    cases ev with
    | streamDone => simp [waitLoop] at hf
    | readError msg => simp [waitLoop] at hf
    | chunk bytes =>
      rw [waitLoop] at hf
      cases hE : extractFrame (buffer ++ bytes) with
      | some fi =>
        rw [scanBuffer_some hE] at hf
        simp at hf
        rw [← hf]
        exact ⟨extractFrame_valid hE, extractFrame_frame_length hE⟩
      | none =>
        rw [scanBuffer_none hE] at hf
        simp at hf
        exact ih (buffer ++ bytes) f hf

/-- Evaluation of `waitForResponse` on a single chunk from which a frame
is recovered. -/
theorem waitForResponse_chunk_found {tid : Nat} {bytes : List Nat} {fi : FrameInfo}
    (h : extractFrame bytes = some fi) :
    waitForResponse tid [ReadEvent.chunk bytes] =
      (some fi.frame, [⟨Direction.RECEIVED, some fi.frame, tid, ""⟩]) := by
  unfold waitForResponse
  rw [waitLoop]
  simp only [List.nil_append]
  rw [scanBuffer_some h]

/-! ## Facts about frame construction -/

/-- Appending the computed CRC to any message of at least 5 bytes yields a
frame accepted by `validateFrame`. -/
theorem validateFrame_append_crc (msg : List Nat) (h : 5 ≤ msg.length) :
    validateFrame (msg ++ calculateCRC msg) = true := by
  have hlen : (msg ++ calculateCRC msg).length = msg.length + 2 := by
    simp [calculateCRC]
  have h2 : (msg ++ calculateCRC msg).length - 2 = msg.length := by omega
  unfold validateFrame
  rw [if_neg (by omega), h2, List.take_left, List.drop_left]
  simp [calculateCRC]

/-- Masking with `0xFF` is reduction mod 256. -/
theorem and_255_eq_mod (n : Nat) : n &&& 0xFF = n % 256 := by
  simpa using Nat.and_pow_two_sub_one_eq_mod n 8

/-- A right shift by 8 is division by 256. -/
theorem shiftRight_8_eq_div (n : Nat) : n >>> 8 = n / 256 := by
  rw [Nat.shiftRight_eq_div_pow]

/-! ## Claims -/

set_option maxRecDepth 100000

/-- C2: for every slave in [1,247] and register in [0,65535],
`createModbusFrame slave register` is exactly the 8-byte sequence
`[slave, 0x03, reg_hi, reg_lo, 0x00, 0x01, crc_lo, crc_hi]`, where
`reg_hi`/`reg_lo` are the big-endian register bytes and the trailing two
bytes are the Modbus CRC-16 of the first six bytes, low byte first;
consequently `validateFrame` returns true on this frame. -/
theorem createModbusFrame_spec (slave reg : Nat)
    (h1 : 1 ≤ slave) (h2 : slave ≤ 247) (h3 : reg ≤ 65535) :
    createModbusFrame slave reg =
      [slave, 0x03, reg / 256, reg % 256, 0x00, 0x01] ++
        calculateCRC [slave, 0x03, reg / 256, reg % 256, 0x00, 0x01] ∧
    validateFrame (createModbusFrame slave reg) = true := by
  have hs : slave &&& 0xFF = slave := by
    rw [and_255_eq_mod]; omega
  have hhi : (reg >>> 8) &&& 0xFF = reg / 256 := by
    rw [shiftRight_8_eq_div, and_255_eq_mod]; omega
  have hlo : reg &&& 0xFF = reg % 256 := and_255_eq_mod reg
  constructor
  · simp only [createModbusFrame, hs, hhi, hlo]
  · simp only [createModbusFrame, hs, hhi, hlo]
    exact validateFrame_append_crc _ (by simp)

/-- Witness for C2 at slave `0x1A`, register 10. -/
theorem createModbusFrame_spec_witness :
    createModbusFrame 0x1A 10 =
      [0x1A, 0x03, 0, 10, 0x00, 0x01] ++ calculateCRC [0x1A, 0x03, 0, 10, 0x00, 0x01] ∧
    validateFrame (createModbusFrame 0x1A 10) = true :=
  have h := createModbusFrame_spec 0x1A 10 (by decide) (by decide) (by decide)
  ⟨h.1.trans (by decide), h.2⟩

/-- C8: appending the two bytes of `calculateCRC` to
`[0x1A, 0x03, 0x00, 0x0A, 0x00, 0x01]` gives an 8-byte frame accepted by
`validateFrame`, and each of the 64 single-bit flips of that frame is
rejected by `validateFrame`. -/
theorem crc_single_bit_flip :
    validateFrame ([0x1A, 0x03, 0x00, 0x0A, 0x00, 0x01] ++
        calculateCRC [0x1A, 0x03, 0x00, 0x0A, 0x00, 0x01]) = true ∧
    ∀ k, k < 64 →
      validateFrame (flipBit ([0x1A, 0x03, 0x00, 0x0A, 0x00, 0x01] ++
        calculateCRC [0x1A, 0x03, 0x00, 0x0A, 0x00, 0x01]) k) = false := by
  constructor
  · decide
  · decide

/-- Witness for C8: the flip of bit 63 (the highest CRC bit) is rejected. -/
theorem crc_single_bit_flip_witness :
    validateFrame (flipBit ([0x1A, 0x03, 0x00, 0x0A, 0x00, 0x01] ++
      calculateCRC [0x1A, 0x03, 0x00, 0x0A, 0x00, 0x01]) 63) = false :=
  crc_single_bit_flip.2 63 (by decide)

/-- C1 counterexample: already with slave 1 ∈ [1,247], register 0 and
empty junk, `extractFrame` does not return the 8-byte output of
`createModbusFrame` — it returns `none` (it only ever extracts 7-byte
windows). -/
theorem roundTrip_counterexample :
    (createModbusFrame 1 0).length = 8 ∧
    extractFrame (createModbusFrame 1 0) = none := by
  exact ⟨by decide, by decide⟩

/-- C1 (amended): the codec round-trips 7-byte frames, not the 8-byte
request frames: every CRC-valid 7-byte frame surrounded by an arbitrary
junk suffix and by a junk prefix that creates no earlier CRC-valid
candidate window is returned unaltered together with the suffix, while
the exact output of `createModbusFrame` is in general not recovered. -/
theorem frame_roundTrip (p f s : List Nat)
    (hlen : f.length = 7) (hv : validateFrame f = true)
    (hpre : ∀ i, i < p.length → validateFrame (window (p ++ f ++ s) i) = false) :
    extractFrame (p ++ f ++ s) = some ⟨f, s⟩ := by
  have hw : window (p ++ f ++ s) p.length = f := by
    rw [window, List.append_assoc, List.drop_left]
    exact List.take_left' hlen
  have hv' : validateFrame (window (p ++ f ++ s) p.length) = true := by
    rw [hw]; exact hv
  have h := extractFrame_eq_some_of hv' (fun m hm => hpre m hm)
  rw [hw] at h
  have hrem : (p ++ f ++ s).drop (p.length + 7) = s := by
    rw [List.append_assoc, ← List.drop_drop, List.drop_left]
    exact List.drop_left' hlen
  rw [hrem] at h
  exact h

/-- Witness for the amended C1: a valid response frame between junk bytes
is recovered unaltered with the junk suffix as the remaining buffer. -/
theorem frame_roundTrip_witness :
    extractFrame ([0, 0] ++ respFrame ++ [9, 9]) = some ⟨respFrame, [9, 9]⟩ :=
  frame_roundTrip [0, 0] respFrame [9, 9] (by decide) (by decide) (by decide)

/-- C5 counterexample: the buffer `createModbusFrame 2 5` holds 8 ≥ 7
bytes and is itself a CRC-valid window, yet `extractFrame` returns
`none`: candidates longer than 7 bytes are never tested, so "no CRC-valid
window exists" is not the condition under which `none` is returned. -/
theorem extractFrame_counterexample :
    validateFrame (createModbusFrame 2 5) = true ∧
    7 ≤ (createModbusFrame 2 5).length ∧
    extractFrame (createModbusFrame 2 5) = none := by
  exact ⟨by decide, by decide, by decide⟩

/-- C5 (amended): `extractFrame` returns `none` when the buffer holds
fewer than 7 bytes or no 7-byte window passes CRC verification (windows
of any other length are never considered); otherwise it returns the
earliest-starting CRC-valid 7-byte window together with the suffix of the
buffer after that window. -/
theorem extractFrame_characterisation (buffer : List Nat) :
    (buffer.length < 7 → extractFrame buffer = none) ∧
    ((∀ i, i + 7 ≤ buffer.length → validateFrame (window buffer i) = false) →
      extractFrame buffer = none) ∧
    ∀ j, validateFrame (window buffer j) = true →
      (∀ m, m < j → validateFrame (window buffer m) = false) →
      extractFrame buffer = some ⟨window buffer j, buffer.drop (j + 7)⟩ :=
  ⟨fun h => extractFrame_short h,
   fun h => extractFrame_eq_none h,
   fun _ hv hmin => extractFrame_eq_some_of hv hmin⟩

/-- Witness for the amended C5: a short buffer yields `none`, and a buffer
starting with a CRC-valid window yields that window and the rest. -/
theorem extractFrame_characterisation_witness :
    extractFrame [1, 2, 3] = none ∧
    extractFrame (respFrame ++ [7]) = some ⟨window (respFrame ++ [7]) 0, (respFrame ++ [7]).drop 7⟩ :=
  ⟨(extractFrame_characterisation [1, 2, 3]).1 (by decide),
   (extractFrame_characterisation (respFrame ++ [7])).2.2 0 (by decide)
     (fun m hm => absurd hm (Nat.not_lt_zero m))⟩

/-- C10: every successful `extractFrame` result is a 7-byte frame that
passes `validateFrame`, so the `INVALID`/`CRC mismatch` branch of the
scan loop inside `waitForResponse` is dead code: `scanBuffer` never logs
an `INVALID` entry, for every buffer content. -/
theorem extractFrame_always_valid :
    (∀ (buffer : List Nat) (fi : FrameInfo), extractFrame buffer = some fi →
      fi.frame.length = 7 ∧ validateFrame fi.frame = true) ∧
    ∀ (tid : Nat) (buffer : List Nat),
      ∀ e ∈ (scanBuffer tid buffer).2.2, e.dir ≠ Direction.INVALID := by
  constructor
  · intro buffer fi h
    exact ⟨extractFrame_frame_length h, extractFrame_valid h⟩
  · intro tid buffer e he
    cases hE : extractFrame buffer with
    | some fi =>
      rw [scanBuffer_some hE] at he
      simp at he
      rw [he]
      simp
    | none =>
      rw [scanBuffer_none hE] at he
      simp at he

/-- Witness for C10 at the concrete buffer `respFrame`. -/
theorem extractFrame_always_valid_witness :
    respFrame.length = 7 ∧ validateFrame respFrame = true :=
  extractFrame_always_valid.1 respFrame ⟨respFrame, []⟩ (by decide)

/-- C4 counterexample: the first candidate window of this buffer fails
CRC verification, yet `waitForResponse` logs no `INVALID` entry at all —
the scan silently skips invalid windows inside `extractFrame`, and the
only entry produced is the `RECEIVED` for the valid frame found later. -/
theorem invalid_window_silent :
    validateFrame (window ([0, 0, 0, 0, 0, 0, 0] ++ respFrame) 0) = false ∧
    (waitForResponse 1 [ReadEvent.chunk ([0, 0, 0, 0, 0, 0, 0] ++ respFrame)]).2.map
        LogEntry.dir = [Direction.RECEIVED] := by
  exact ⟨by decide, by decide⟩

/-- C4 (amended): candidate windows failing CRC verification are skipped
silently inside `extractFrame` — no log entry is produced for them and
scanning continues on the same buffer; consequently `waitForResponse`
never emits an `INVALID` (CRC mismatch) entry, for any transport
behaviour. -/
theorem waitForResponse_no_invalid (tid : Nat) (evs : List ReadEvent) :
    ∀ e ∈ (waitForResponse tid evs).2, e.dir ≠ Direction.INVALID := by
  intro e he
  rcases waitLoop_logs evs [] e he with h | h <;> rw [h] <;> decide

/-- Witness for the amended C4 on a single-chunk trace. -/
theorem waitForResponse_no_invalid_witness :
    (⟨Direction.RECEIVED, some respFrame, 1, ""⟩ : LogEntry).dir ≠ Direction.INVALID :=
  waitForResponse_no_invalid 1 [ReadEvent.chunk respFrame]
    ⟨Direction.RECEIVED, some respFrame, 1, ""⟩ (by decide)

/-- C3 counterexample: a rejected transport read during the await phase
is logged `ERROR`, but `waitForResponse` then returns no frame, so
`handleTransaction` additionally logs `TIMEOUT` for the same transaction
— contradicting "no TIMEOUT entry is logged for that transaction". -/
theorem readError_counterexample :
    (handleTransaction 1 0 1 false none [ReadEvent.readError "boom"]).2.map LogEntry.dir =
      [Direction.SENT, Direction.ERROR, Direction.TIMEOUT] := by
  decide

/-- C3 (amended): a transport read error during the await phase is logged
as `ERROR` inside `waitForResponse`, but the transaction then terminates
through the no-response path, additionally logging `TIMEOUT`; an
unexpected end-of-stream produces no `ERROR` entry at all and likewise
terminates with `TIMEOUT`.  In both cases the display value is untouched. -/
theorem awaitError_ends_as_timeout (slave reg tid : Nat) (isSigned : Bool)
    (display : Option Int) (msg : String) :
    handleTransaction slave reg tid isSigned display [ReadEvent.readError msg] =
      (display,
        [⟨Direction.SENT, some (createModbusFrame slave reg), tid, ""⟩,
         ⟨Direction.ERROR, none, tid, msg⟩,
         ⟨Direction.TIMEOUT, some (createModbusFrame slave reg), tid, "No response"⟩]) ∧
    handleTransaction slave reg tid isSigned display [ReadEvent.streamDone] =
      (display,
        [⟨Direction.SENT, some (createModbusFrame slave reg), tid, ""⟩,
         ⟨Direction.TIMEOUT, some (createModbusFrame slave reg), tid, "No response"⟩]) :=
  ⟨rfl, rfl⟩

/-- C6: when the await phase completes with a response frame whose
byte-count field (third byte) is not 2, `processValidResponse` logs an
`INVALID`/`Bad byte count` entry, the bound value display is left
untouched, and no `TIMEOUT` or `ERROR` entry exists anywhere in the
transaction's log. -/
theorem badByteCount_keeps_display (slave reg tid : Nat) (isSigned : Bool)
    (display : Option Int) (evs : List ReadEvent) (f : List Nat)
    (hf : (waitForResponse tid evs).1 = some f) (hbc : f.getD 2 0 ≠ 2) :
    (handleTransaction slave reg tid isSigned display evs).1 = display ∧
    (⟨Direction.INVALID, some f, tid, "Bad byte count"⟩ : LogEntry) ∈
      (handleTransaction slave reg tid isSigned display evs).2 ∧
    ∀ e ∈ (handleTransaction slave reg tid isSigned display evs).2,
      e.dir ≠ Direction.TIMEOUT ∧ e.dir ≠ Direction.ERROR := by
  have hp : processValidResponse f tid isSigned display =
      (display, [⟨Direction.INVALID, some f, tid, "Bad byte count"⟩]) := by
    unfold processValidResponse
    rw [if_pos hbc]
  simp only [handleTransaction, hf, hp]
  refine ⟨by simp, by simp, ?_⟩
  intro e he
  simp only [List.mem_cons, List.mem_append, List.mem_singleton,
    List.not_mem_nil, or_false] at he
  rcases he with rfl | he | rfl
  · exact ⟨by simp, by simp⟩
  · have hd := waitLoop_some_logs evs [] f hf e he
    rw [hd]
    exact ⟨by simp, by simp⟩
  · exact ⟨by simp, by simp⟩

/-- Witness for C6: a CRC-valid frame with byte count 4 leaves the
previously displayed value in place. -/
theorem badByteCount_keeps_display_witness :
    (handleTransaction 0x1A 10 1 false (some 7) [ReadEvent.chunk badCountFrame]).1 = some 7 :=
  (badByteCount_keeps_display 0x1A 10 1 false (some 7) [ReadEvent.chunk badCountFrame]
    badCountFrame (by decide) (by decide)).1

/-- C7: with byte count 2, the two payload bytes are decoded as a
big-endian unsigned 16-bit value (so at most 65535); with signed
interpretation requested, values at or above 32768 are reinterpreted as
`value - 65536`. -/
theorem processValidResponse_decode (frame : List Nat) (tid : Nat) (display : Option Int)
    (h2 : frame.getD 2 0 = 2) (h3 : frame.getD 3 0 ≤ 255) (h4 : frame.getD 4 0 ≤ 255) :
    256 * frame.getD 3 0 + frame.getD 4 0 ≤ 65535 ∧
    processValidResponse frame tid false display =
      (some ((256 * frame.getD 3 0 + frame.getD 4 0 : Nat) : Int), []) ∧
    processValidResponse frame tid true display =
      (some (if 32768 ≤ 256 * frame.getD 3 0 + frame.getD 4 0 then
          ((256 * frame.getD 3 0 + frame.getD 4 0 : Nat) : Int) - 65536
        else ((256 * frame.getD 3 0 + frame.getD 4 0 : Nat) : Int)), []) := by
  have h28 : (2 : Nat) ^ 8 = 256 := by norm_num
  have hraw : (frame.getD 3 0) <<< 8 ||| frame.getD 4 0
      = 256 * frame.getD 3 0 + frame.getD 4 0 := by
    rw [Nat.shiftLeft_eq, Nat.mul_comm (frame.getD 3 0) (2 ^ 8),
      ← Nat.mul_add_lt_is_or (show frame.getD 4 0 < 2 ^ 8 by rw [h28]; omega)
        (frame.getD 3 0), h28]
  refine ⟨by omega, ?_, ?_⟩
  · simp only [processValidResponse, h2, hraw]
    rw [if_neg (by omega), if_neg (by simp)]
  · simp only [processValidResponse, h2, hraw]
    rw [if_neg (by omega)]
    by_cases hc : 32768 ≤ 256 * frame.getD 3 0 + frame.getD 4 0
    · rw [if_pos (by exact ⟨trivial, by omega⟩), if_pos hc]
    · rw [if_neg (by intro hcon; exact hc (by omega)), if_neg hc]

/-- Witness for C7 at the boundary values 0x7FFF, 0x8000 and 0xFFFF. -/
theorem processValidResponse_decode_witness :
    processValidResponse [0x1A, 0x03, 0x02, 0x7F, 0xFF, 0, 0] 1 false none = (some 32767, []) ∧
    processValidResponse [0x1A, 0x03, 0x02, 0x7F, 0xFF, 0, 0] 1 true none = (some 32767, []) ∧
    processValidResponse [0x1A, 0x03, 0x02, 0x80, 0x00, 0, 0] 1 false none = (some 32768, []) ∧
    processValidResponse [0x1A, 0x03, 0x02, 0x80, 0x00, 0, 0] 1 true none = (some (-32768), []) ∧
    processValidResponse [0x1A, 0x03, 0x02, 0xFF, 0xFF, 0, 0] 1 false none = (some 65535, []) ∧
    processValidResponse [0x1A, 0x03, 0x02, 0xFF, 0xFF, 0, 0] 1 true none = (some (-1), []) :=
  have ha := processValidResponse_decode [0x1A, 0x03, 0x02, 0x7F, 0xFF, 0, 0] 1 none
    (by decide) (by decide) (by decide)
  have hb := processValidResponse_decode [0x1A, 0x03, 0x02, 0x80, 0x00, 0, 0] 1 none
    (by decide) (by decide) (by decide)
  have hc := processValidResponse_decode [0x1A, 0x03, 0x02, 0xFF, 0xFF, 0, 0] 1 none
    (by decide) (by decide) (by decide)
  ⟨ha.2.1.trans (by decide), ha.2.2.trans (by decide),
   hb.2.1.trans (by decide), hb.2.2.trans (by decide),
   hc.2.1.trans (by decide), hc.2.2.trans (by decide)⟩

/-- C9: a register row whose register field is non-numeric produces no
transaction (the transaction counter ends the cycle unchanged by it) and
no log entry, while the remaining rows of the cycle are processed exactly
as they would be without it. -/
theorem invalid_register_skipped (slave tid : Nat) (rows1 rows2 : List RegRow)
    (row : RegRow) (h : row.reg = none) :
    (pollCycle slave tid (rows1 ++ row :: rows2)).1 =
      (pollCycle slave tid (rows1 ++ rows2)).1 ∧
    (pollCycle slave tid (rows1 ++ row :: rows2)).2.1 =
      (pollCycle slave tid (rows1 ++ rows2)).2.1 := by
  induction rows1 generalizing tid with
  | nil =>
    simp only [List.nil_append, pollCycle, h]
    exact ⟨by trivial, by trivial⟩
  | cons r rows1 ih =>
    cases hr : r.reg with
    | none =>
      simp only [List.cons_append, pollCycle, hr, List.append_eq]
      exact ih tid
    | some reg =>
      simp only [List.cons_append, pollCycle, hr, List.append_eq]
      exact ⟨(ih (tid + 1)).1, by rw [(ih (tid + 1)).2]⟩

/-- Witness for C9: one skipped row behaves like an empty cycle. -/
theorem invalid_register_skipped_witness :
    (pollCycle 1 0 [RegRow.mk none false none []]).1 = (pollCycle 1 0 []).1 ∧
    (pollCycle 1 0 [RegRow.mk none false none []]).2.1 = (pollCycle 1 0 []).2.1 :=
  invalid_register_skipped 1 0 [] [] (RegRow.mk none false none []) rfl

end WebModbus
